import Mathlib

/-
Verification of the RFEI tuner (src/python/tvm/autotvm/tuner/rfei_tuner.py)
against its natural-language specification.

The file first gives a shallow embedding of the code in rfei_tuner.py:
construction of the tuner (RFEITuner.__init__) and the tune wrapper
(RFEITuner.tune).  The collaborating classes (ModelBasedTuner,
RFEICostModel, SimulatedAnnealingOptimizer) are only constructed or called
by this file, so they are embedded as records of their construction
arguments; behaviour of the collaborators that a claim needs and that is
not part of the source file is modelled from the specification, in
definitions whose doc comments say so.
-/

/-- Opaque tuning task handle. -/
structure TuningTask where
  tid : Nat
deriving DecidableEq

/-- Opaque custom optimizer object (an instance of ModelOptimizer). -/
structure ModelOptimizer where
  oid : Nat
deriving DecidableEq

/-- Record of the construction arguments of a SimulatedAnnealingOptimizer. -/
structure SimulatedAnnealingOptimizer where
  task : TuningTask
  log_interval : Int
  parallel_size : Nat
deriving DecidableEq

/-- Record of the construction arguments of an RFEICostModel. -/
structure RFEICostModel where
  task : TuningTask
  feature_type : String
  num_threads : Option Nat
  log_interval : Int
deriving DecidableEq

/-- The Python value passed as the `optimizer` argument: a string, a
ModelOptimizer instance, or any other object. -/
inductive OptimizerArg where
  | str : String → OptimizerArg
  | obj : ModelOptimizer → OptimizerArg
  | other : Nat → OptimizerArg
deriving DecidableEq

/-- Python `isinstance(optimizer, ModelOptimizer)`. -/
def OptimizerArg.isModelOptimizer : OptimizerArg → Bool
  | OptimizerArg.obj _ => true
  | _ => false

/-- The optimizer actually held by the tuner after construction. -/
inductive TunerOptimizer where
  | sa : SimulatedAnnealingOptimizer → TunerOptimizer
  | custom : ModelOptimizer → TunerOptimizer
deriving DecidableEq

/-- The state ModelBasedTuner.__init__ receives from RFEITuner.__init__.
The field `diversity_filter` embeds the source's diversity_filter_ratio
argument (int or float, or None). -/
structure RFEITuner where
  task : TuningTask
  cost_model : RFEICostModel
  optimizer : TunerOptimizer
  plan_size : Nat
  diversity_filter : Option ℚ
  uncertainty_aware : Bool
deriving DecidableEq

/-- Embedding of RFEITuner.__init__ (rfei_tuner.py lines 68-93): build the
cost model with log_interval // 2 (Python floor division, Int.fdiv); if
optimizer == "sa" build a SimulatedAnnealingOptimizer with the tuner's
log_interval and parallel_size = plan_size * 2, otherwise assert that the
argument is a ModelOptimizer instance and use it unchanged; an assertion
failure is an immediate AssertionError, embedded as Except.error carrying
the source's message (note the source concatenates adjacent string
literals without a space, giving "stringor"). -/
def RFEITuner.init (task : TuningTask) (plan_size : Nat) (feature_type : String)
    (num_threads : Option Nat) (optimizer : OptimizerArg)
    (diversity_filter : Option ℚ) (log_interval : Int)
    (uncertainty_aware : Bool) : Except String RFEITuner :=
  let cost_model : RFEICostModel :=
    { task := task, feature_type := feature_type, num_threads := num_threads,
      log_interval := Int.fdiv log_interval 2 }
  if optimizer = OptimizerArg.str "sa" then
    Except.ok
      { task := task, cost_model := cost_model,
        optimizer := TunerOptimizer.sa
          { task := task, log_interval := log_interval,
            parallel_size := plan_size * 2 },
        plan_size := plan_size, diversity_filter := diversity_filter,
        uncertainty_aware := uncertainty_aware }
  else
    match optimizer with
    | OptimizerArg.obj m =>
        Except.ok
          { task := task, cost_model := cost_model,
            optimizer := TunerOptimizer.custom m,
            plan_size := plan_size, diversity_filter := diversity_filter,
            uncertainty_aware := uncertainty_aware }
    | _ =>
        Except.error
          "Optimizer must be a supported name stringor a ModelOptimizer object."

/-- RFEITuner.__init__ with every optional argument left at its default
(plan_size=32, feature_type="itervar", num_threads=None, optimizer="sa",
diversity_filter_ratio=None, log_interval=50, uncertainty_aware=True). -/
def RFEITuner.initDefault (task : TuningTask) : Except String RFEITuner :=
  RFEITuner.init task 32 "itervar" none (OptimizerArg.str "sa") none 50 true

/-- The worker-pool state owned by the cost model. -/
structure PoolState where
  pool_open : Bool
deriving DecidableEq

/-- Embedding of RFEICostModel._close_pool: releases the worker pool. -/
def RFEICostModel._close_pool (_s : PoolState) : PoolState :=
  { pool_open := false }

/-- Embedding of RFEITuner.tune (rfei_tuner.py lines 95-99): run the base
class tune — an external collaborator, passed as a state transformer that
either returns normally or raises — and then call _close_pool.  There is
no try/finally in the source, so when the inner tune raises, the exception
propagates and the _close_pool line is never reached. -/
def RFEITuner.tune (inner : PoolState → Except String Unit × PoolState)
    (s : PoolState) : Except String Unit × PoolState :=
  match inner s with
  | (Except.ok _, s1) => (Except.ok (), RFEICostModel._close_pool s1)
  | (Except.error e, s1) => (Except.error e, s1)

/-- C1: for every construction of RFEITuner with an optimizer argument
that is neither the string "sa" nor a ModelOptimizer instance,
construction itself raises AssertionError (here: returns the assertion
message as an error), so the failure happens at __init__ and is never
deferred to a tuning call. -/
theorem C1_invalid_optimizer_fails_at_init
    (task : TuningTask) (ps : Nat) (ft : String) (nt : Option Nat)
    (opt : OptimizerArg) (dfr : Option ℚ) (li : Int) (ua : Bool)
    (hne : opt ≠ OptimizerArg.str "sa")
    (hno : opt.isModelOptimizer = false) :
    RFEITuner.init task ps ft nt opt dfr li ua =
      Except.error
        "Optimizer must be a supported name stringor a ModelOptimizer object." := by
  unfold RFEITuner.init
  rw [if_neg hne]
  cases opt with
  | str s => rfl
  | obj m => simp [OptimizerArg.isModelOptimizer] at hno
  | other k => rfl

/-- Closed witness for C1 at optimizer = the string "xgb". -/
theorem C1_witness :
    (OptimizerArg.str "xgb" ≠ OptimizerArg.str "sa") ∧
    ((OptimizerArg.str "xgb").isModelOptimizer = false) ∧
    RFEITuner.init ⟨0⟩ 32 "itervar" none (OptimizerArg.str "xgb") none 50 true =
      Except.error
        "Optimizer must be a supported name stringor a ModelOptimizer object." :=
  ⟨by decide, by decide,
    C1_invalid_optimizer_fails_at_init ⟨0⟩ 32 "itervar" none
      (OptimizerArg.str "xgb") none 50 true (by decide) (by decide)⟩

/-- C3: with optimizer "sa" the tuner is built with a
SimulatedAnnealingOptimizer over the same task, with parallel_size
2 * plan_size and the tuner's log_interval; a ModelOptimizer object is
used unchanged. -/
theorem C3_optimizer_construction
    (task : TuningTask) (ps : Nat) (ft : String) (nt : Option Nat)
    (dfr : Option ℚ) (li : Int) (ua : Bool) (m : ModelOptimizer) :
    (RFEITuner.init task ps ft nt (OptimizerArg.str "sa") dfr li ua).map
        RFEITuner.optimizer =
      Except.ok (TunerOptimizer.sa
        { task := task, log_interval := li, parallel_size := 2 * ps }) ∧
    (RFEITuner.init task ps ft nt (OptimizerArg.obj m) dfr li ua).map
        RFEITuner.optimizer = Except.ok (TunerOptimizer.custom m) := by
  constructor
  · simp [RFEITuner.init, Except.map, Nat.mul_comm]
  · simp [RFEITuner.init, Except.map]

/-- C9: for every successful construction of RFEITuner with log_interval L,
the cost model is built with log interval floor(L / 2) (Python //); in
particular L = 0 and L = 1 both give 0, the documented silent value. -/
theorem C9_cost_model_log_interval_halved
    (task : TuningTask) (ps : Nat) (ft : String) (nt : Option Nat)
    (opt : OptimizerArg) (dfr : Option ℚ) (li : Int) (ua : Bool)
    (t : RFEITuner)
    (h : RFEITuner.init task ps ft nt opt dfr li ua = Except.ok t) :
    t.cost_model.log_interval = Int.fdiv li 2 ∧
    Int.fdiv 0 2 = 0 ∧ Int.fdiv 1 2 = 0 := by
  refine ⟨?_, by decide, by decide⟩
  unfold RFEITuner.init at h
  split at h
  · cases h
    rfl
  · cases opt with
    | str s => cases h
    | obj m =>
        cases h
        rfl
    | other k => cases h

/-- Closed witness for C9 at log_interval = 1: the built cost model has log
interval 0, hence is silent, while the tuner verbosity 1 is nonzero. -/
theorem C9_witness :
    (RFEITuner.init ⟨0⟩ 32 "itervar" none (OptimizerArg.str "sa") none 1 true =
      Except.ok
        { task := ⟨0⟩,
          cost_model := { task := ⟨0⟩, feature_type := "itervar",
                          num_threads := none, log_interval := 0 },
          optimizer := TunerOptimizer.sa
            { task := ⟨0⟩, log_interval := 1, parallel_size := 64 },
          plan_size := 32, diversity_filter := none,
          uncertainty_aware := true }) ∧
    ({ task := ⟨0⟩, feature_type := "itervar",
       num_threads := none, log_interval := 0 : RFEICostModel }.log_interval =
      Int.fdiv 1 2) ∧ (1 : Int) ≠ 0 :=
  ⟨by rfl,
    (C9_cost_model_log_interval_halved ⟨0⟩ 32 "itervar" none
      (OptimizerArg.str "sa") none 1 true _ (by rfl)).1,
    by decide⟩

/-- C10, counterexample: at the all-defaults construction the cost model
receives log interval 25, not the default log_interval 50, so it is false
that every default is forwarded unchanged to the component consuming it. -/
theorem C10_counterexample :
    ((RFEITuner.initDefault ⟨0⟩).toOption.map
      (fun t => t.cost_model.log_interval)) ≠ some 50 := by
  decide

/-- C10 (amended): constructing RFEITuner with only a task uses the
defaults plan_size=32, feature_type="itervar", num_threads=None,
optimizer="sa", diversity_filter_ratio=None, log_interval=50,
uncertainty_aware=True; feature_type and num_threads reach the cost model
unchanged and plan_size, the ratio and uncertainty_aware reach the base
tuner unchanged, but the cost model receives log interval 25 (halved) and
the SA optimizer receives parallel_size 64 (doubled plan_size) together
with the unchanged log_interval 50. -/
theorem C10_default_construction (task : TuningTask) :
    RFEITuner.initDefault task = Except.ok
      { task := task,
        cost_model := { task := task, feature_type := "itervar",
                        num_threads := none, log_interval := 25 },
        optimizer := TunerOptimizer.sa
          { task := task, log_interval := 50, parallel_size := 64 },
        plan_size := 32, diversity_filter := none,
        uncertainty_aware := true } := by
  rfl

/-- C2, counterexample: when the base class tune exits exceptionally
(external cancellation), RFEITuner.tune propagates the exception and the
worker pool is left open — _close_pool is not invoked on that exit path. -/
theorem C2_counterexample :
    (RFEITuner.tune (fun s => (Except.error "KeyboardInterrupt", s))
        { pool_open := true }).1 = Except.error "KeyboardInterrupt" ∧
    (RFEITuner.tune (fun s => (Except.error "KeyboardInterrupt", s))
        { pool_open := true }).2.pool_open = true := by
  exact ⟨rfl, rfl⟩

/-- C2 (amended): RFEITuner.tune invokes _close_pool exactly when the base
class tune returns normally (covering normal completion and budget
exhaustion); on an exceptional exit the exception propagates and the pool
state is returned untouched. -/
theorem C2_close_pool_on_normal_exit_only
    (inner : PoolState → Except String Unit × PoolState) (s : PoolState) :
    (∀ u s1, inner s = (Except.ok u, s1) →
      (RFEITuner.tune inner s).2 = RFEICostModel._close_pool s1) ∧
    (∀ e s1, inner s = (Except.error e, s1) →
      (RFEITuner.tune inner s).2 = s1 ∧
      (RFEITuner.tune inner s).1 = Except.error e) := by
  constructor
  · intro u s1 h
    unfold RFEITuner.tune
    rw [h]
  · intro e s1 h
    unfold RFEITuner.tune
    rw [h]
    exact ⟨rfl, rfl⟩

/-- Closed witness for C2 (amended): a normally-returning base tune leads
to a closed pool. -/
theorem C2_witness :
    ((fun (s : PoolState) => (Except.ok (), s)) { pool_open := true } =
      ((Except.ok () : Except String Unit), ({ pool_open := true } : PoolState))) ∧
    (RFEITuner.tune (fun s => (Except.ok (), s)) { pool_open := true }).2 =
      RFEICostModel._close_pool { pool_open := true } :=
  ⟨rfl,
    (C2_close_pool_on_normal_exit_only (fun s => (Except.ok (), s))
      { pool_open := true }).1 () { pool_open := true } rfl⟩

/-- Modelled from the spec: the orchestrator state of the tuning loop
(ModelBasedTuner, not under src/): the accepted-trial counter since the
last refit, the total trial counter, and the number of cost-model refits
(each refit is immediately followed by replanning). -/
structure LoopState where
  train_ct : Nat
  total_ct : Nat
  refits : Nat
deriving DecidableEq

/-- Modelled from the spec: loop start — an initial refit and plan happen
before any measurement is accepted. -/
def loopInit : LoopState :=
  { train_ct := 0, total_ct := 0, refits := 1 }

/-- Modelled from the spec: accepting one measurement — both counters
advance; when the accepted-trial counter reaches plan_size, the model is
refitted, the loop replans, and the counter resets. -/
def loopStep (ps : Nat) (s : LoopState) : LoopState :=
  if ps ≤ s.train_ct + 1 then
    { train_ct := 0, total_ct := s.total_ct + 1, refits := s.refits + 1 }
  else
    { train_ct := s.train_ct + 1, total_ct := s.total_ct + 1,
      refits := s.refits }

/-- The loop state after n accepted measurements. -/
def loopRun (ps : Nat) : Nat → LoopState
  | 0 => loopInit
  | n + 1 => loopStep ps (loopRun ps n)

lemma loopRun_closed (ps : Nat) (hps : 0 < ps) :
    ∀ n, loopRun ps n =
      { train_ct := n % ps, total_ct := n, refits := 1 + n / ps }
  | 0 => by
      simp [loopRun, loopInit, Nat.zero_mod, Nat.zero_div]
  | n + 1 => by
      rw [loopRun, loopRun_closed ps hps n]
      unfold loopStep
      have hmod : (n % ps + 1) % ps = (n + 1) % ps :=
        (Nat.mod_modEq n ps).add_right 1
      have hlt : n % ps < ps := Nat.mod_lt n hps
      by_cases h : ps ≤ n % ps + 1
      · have heq : n % ps + 1 = ps := Nat.le_antisymm (by omega) h
        have hz : (n + 1) % ps = 0 := by
          rw [← hmod, heq, Nat.mod_self]
        have hdvd : ps ∣ n + 1 := Nat.dvd_of_mod_eq_zero hz
        rw [if_pos h]
        have hdiv : (n + 1) / ps = n / ps + 1 := Nat.succ_div_of_dvd hdvd
        simp only [LoopState.mk.injEq]
        refine ⟨hz.symm, trivial, by omega⟩
      · have hne : (n + 1) % ps = n % ps + 1 := by
          rw [← hmod]
          exact Nat.mod_eq_of_lt (by omega)
        have hnd : ¬ ps ∣ n + 1 := by
          intro hd
          have := Nat.mod_eq_zero_of_dvd hd
          omega
        rw [if_neg h]
        have hdiv : (n + 1) / ps = n / ps := Nat.succ_div_of_not_dvd hnd
        simp only [LoopState.mk.injEq]
        refine ⟨hne.symm, trivial, by omega⟩

/-- C5: with a positive plan_size, after n accepted measurements the loop
has performed exactly 1 + n / plan_size refit-and-replan passes (the
initial one plus one per completed plan_size block), the accepted-trial
counter since the last refit is n % plan_size, the total counter is n and
grows by one per measurement; a step performs a refit exactly when the
accepted-trial counter reaches plan_size, and on any non-refit step the
counter just increments. -/
theorem C5_refit_exactly_at_plan_boundaries (ps n : Nat) (hps : 0 < ps) :
    (loopRun ps n).total_ct = n ∧
    (loopRun ps n).train_ct = n % ps ∧
    (loopRun ps n).refits = 1 + n / ps ∧
    ((loopRun ps (n + 1)).refits = (loopRun ps n).refits + 1 ↔
      (loopRun ps n).train_ct + 1 = ps) ∧
    ((loopRun ps (n + 1)).refits = (loopRun ps n).refits →
      (loopRun ps (n + 1)).train_ct = (loopRun ps n).train_ct + 1) ∧
    (loopRun ps (n + 1)).total_ct = (loopRun ps n).total_ct + 1 := by
  have hc := loopRun_closed ps hps
  have hlt : (loopRun ps n).train_ct < ps := by
    rw [hc n]
    exact Nat.mod_lt n hps
  refine ⟨by rw [hc n], by rw [hc n], by rw [hc n], ?_, ?_, ?_⟩
  · rw [loopRun]
    unfold loopStep
    by_cases h : ps ≤ (loopRun ps n).train_ct + 1
    · rw [if_pos h]
      dsimp only
      omega
    · rw [if_neg h]
      dsimp only
      omega
  · rw [loopRun]
    unfold loopStep
    by_cases h : ps ≤ (loopRun ps n).train_ct + 1
    · rw [if_pos h]
      dsimp only
      omega
    · rw [if_neg h]
      dsimp only
      omega
  · rw [loopRun]
    unfold loopStep
    by_cases h : ps ≤ (loopRun ps n).train_ct + 1
    · rw [if_pos h]
    · rw [if_neg h]

/-- Closed witness for C5 at plan_size 2 after 3 accepted measurements. -/
theorem C5_witness :
    (0 < 2) ∧
    ((loopRun 2 3).total_ct = 3 ∧
     (loopRun 2 3).train_ct = 3 % 2 ∧
     (loopRun 2 3).refits = 1 + 3 / 2 ∧
     ((loopRun 2 4).refits = (loopRun 2 3).refits + 1 ↔
       (loopRun 2 3).train_ct + 1 = 2) ∧
     ((loopRun 2 4).refits = (loopRun 2 3).refits →
       (loopRun 2 4).train_ct = (loopRun 2 3).train_ct + 1) ∧
     (loopRun 2 4).total_ct = (loopRun 2 3).total_ct + 1) :=
  ⟨by decide, C5_refit_exactly_at_plan_boundaries 2 3 (by decide)⟩

/-- Modelled from the spec: the output stage of the simulated-annealing
optimizer's candidate search (sa_model_optimizer.py, not under src/): the
walker pool is reduced to its deduplicated unmeasured configurations,
best-first; if the pool has collapsed to already-measured configurations,
fall back to the unmeasured configurations of the space, so that the plan
is never empty while unmeasured configurations exist. -/
def findCandidates (measured walkers space : List Nat) : List Nat :=
  let pool := (walkers.filter (fun c => decide (c ∉ measured))).dedup
  if pool.isEmpty then
    (space.filter (fun c => decide (c ∉ measured))).dedup
  else pool

/-- C6: while the space still holds an unmeasured candidate, every plan
the optimizer produces is non-empty, duplicate-free, and made of
unmeasured candidate indices. -/
theorem C6_plan_nonempty_nodup
    (measured walkers space : List Nat) (c : Nat)
    (hc : c ∈ space) (hm : c ∉ measured) :
    findCandidates measured walkers space ≠ [] ∧
    (findCandidates measured walkers space).Nodup ∧
    ∀ x ∈ findCandidates measured walkers space, x ∉ measured := by
  unfold findCandidates
  by_cases hp :
      ((walkers.filter (fun c => decide (c ∉ measured))).dedup).isEmpty = true
  · rw [if_pos hp]
    refine ⟨?_, List.nodup_dedup _, ?_⟩
    · intro hnil
      have hcmem : c ∈ (space.filter (fun c => decide (c ∉ measured))).dedup := by
        rw [List.mem_dedup, List.mem_filter]
        exact ⟨hc, by simpa using hm⟩
      rw [hnil] at hcmem
      exact (List.not_mem_nil c) hcmem
    · intro x hx
      rw [List.mem_dedup, List.mem_filter] at hx
      simpa using hx.2
  · rw [if_neg hp]
    refine ⟨?_, List.nodup_dedup _, ?_⟩
    · intro hnil
      rw [hnil] at hp
      exact hp rfl
    · intro x hx
      rw [List.mem_dedup, List.mem_filter] at hx
      simpa using hx.2

/-- Closed witness for C6: space [0, 1] with 0 measured and an empty
walker pool still yields the valid plan [1]. -/
theorem C6_witness :
    ((1 : Nat) ∈ [0, 1] ∧ (1 : Nat) ∉ [0]) ∧
    (findCandidates [0] [] [0, 1] ≠ [] ∧
     (findCandidates [0] [] [0, 1]).Nodup ∧
     ∀ x ∈ findCandidates [0] [] [0, 1], x ∉ [0]) :=
  ⟨⟨by decide, by decide⟩,
    C6_plan_nonempty_nodup [0] [] [0, 1] 1 (by decide) (by decide)⟩

/-- Modelled from the spec: ranking by the cost model — candidates sorted
by predicted score, best first. -/
def rankByScore (score : Nat → Int) (cands : List Nat) : List Nat :=
  List.insertionSort (fun a b => score b ≤ score a) cands

/-- Modelled from the spec: plain top-k of the candidates by predicted
score. -/
def topK (score : Nat → Int) (k : Nat) (cands : List Nat) : List Nat :=
  (rankByScore score cands).take k

/-- Modelled from the spec: greedy diversity partition — scan the
shortlist best-first, picking a candidate when it is at distance at least
θ in feature space from every previously picked one, setting it aside
otherwise. -/
def greedySplit (dist : Nat → Nat → Nat) (θ : Nat) (picked : List Nat) :
    List Nat → List Nat × List Nat
  | [] => ([], [])
  | c :: rest =>
    if picked.all (fun p => decide (θ ≤ dist p c)) then
      (c :: (greedySplit dist θ (c :: picked) rest).1,
       (greedySplit dist θ (c :: picked) rest).2)
    else
      ((greedySplit dist θ picked rest).1,
       c :: (greedySplit dist θ picked rest).2)

/-- Modelled from the spec: diversity selection — greedy pick under the
distance threshold, relaxing (filling from the set-aside candidates,
still best-first) when the greedy pass yields fewer than plan_size, and
finally keeping plan_size candidates. -/
def diversityPick (dist : Nat → Nat → Nat) (θ ps : Nat)
    (shortlist : List Nat) : List Nat :=
  ((greedySplit dist θ [] shortlist).1 ++
    (greedySplit dist θ [] shortlist).2).take ps

/-- Modelled from the spec: the shortlist length plan_size * ratio, a
fractional ratio being truncated as Python int() truncates a positive
slice bound. -/
def shortlistSize (ps : Nat) (r : ℚ) : Nat :=
  (Rat.floor ((ps : ℚ) * r)).toNat

/-- Modelled from the spec: ModelBasedTuner plan selection
(model_based_tuner.py, not under src/): with diversity_filter_ratio None
the plan is the plain top-plan_size by predicted score; with a ratio the
top plan_size * ratio candidates are shortlisted by the cost model and
plan_size of them are picked by the diversity metric. -/
def selectPlan (score : Nat → Int) (dist : Nat → Nat → Nat) (θ ps : Nat)
    (ratio : Option ℚ) (cands : List Nat) : List Nat :=
  match ratio with
  | none => topK score ps cands
  | some r => diversityPick dist θ ps (topK score (shortlistSize ps r) cands)

lemma greedySplit_perm (dist : Nat → Nat → Nat) (θ : Nat) :
    ∀ (l picked : List Nat),
      List.Perm
        ((greedySplit dist θ picked l).1 ++ (greedySplit dist θ picked l).2)
        l
  | [], _ => by simp [greedySplit]
  | c :: rest, picked => by
      unfold greedySplit
      by_cases h : picked.all (fun p => decide (θ ≤ dist p c)) = true
      · rw [if_pos h]
        exact (greedySplit_perm dist θ rest (c :: picked)).cons c
      · rw [if_neg h]
        exact List.Perm.trans List.perm_middle
          ((greedySplit_perm dist θ rest picked).cons c)

lemma rankByScore_perm (score : Nat → Int) (cands : List Nat) :
    List.Perm (rankByScore score cands) cands :=
  List.perm_insertionSort _ cands

lemma topK_subset (score : Nat → Int) (k : Nat) (cands : List Nat) :
    ∀ x ∈ topK score k cands, x ∈ cands := by
  intro x hx
  exact (rankByScore_perm score cands).subset (List.take_subset k _ hx)

lemma topK_length (score : Nat → Int) (k : Nat) (cands : List Nat) :
    (topK score k cands).length = min k cands.length := by
  unfold topK
  rw [List.length_take, (rankByScore_perm score cands).length_eq]

lemma topK_nodup (score : Nat → Int) (k : Nat) (cands : List Nat)
    (hnd : cands.Nodup) : (topK score k cands).Nodup :=
  ((rankByScore_perm score cands).nodup_iff.mpr hnd).sublist
    (List.take_sublist k _)

lemma diversityPick_length (dist : Nat → Nat → Nat) (θ ps : Nat)
    (shortlist : List Nat) :
    (diversityPick dist θ ps shortlist).length = min ps shortlist.length := by
  unfold diversityPick
  rw [List.length_take, (greedySplit_perm dist θ shortlist []).length_eq]

lemma diversityPick_subset (dist : Nat → Nat → Nat) (θ ps : Nat)
    (shortlist : List Nat) :
    ∀ x ∈ diversityPick dist θ ps shortlist, x ∈ shortlist := by
  intro x hx
  exact (greedySplit_perm dist θ shortlist []).subset
    (List.take_subset ps _ hx)

lemma diversityPick_nodup (dist : Nat → Nat → Nat) (θ ps : Nat)
    (shortlist : List Nat) (hnd : shortlist.Nodup) :
    (diversityPick dist θ ps shortlist).Nodup :=
  ((greedySplit_perm dist θ shortlist []).nodup_iff.mpr hnd).sublist
    (List.take_sublist ps _)

/-- C4: with diversity_filter_ratio unset the plan is the plain
top-plan_size of the candidates by predicted score (no diversity step);
with a ratio r the plan is drawn from the top plan_size * r shortlist
ranked by the cost model, picking plan_size of them (as many as the
shortlist allows) by the diversity metric, without duplicates. -/
theorem C4_diversity_filter_dispatch
    (score : Nat → Int) (dist : Nat → Nat → Nat) (θ ps : Nat)
    (r : ℚ) (cands : List Nat) (hnd : cands.Nodup) :
    (selectPlan score dist θ ps none cands = topK score ps cands ∧
     (selectPlan score dist θ ps none cands).length = min ps cands.length ∧
     (selectPlan score dist θ ps none cands).Nodup) ∧
    (selectPlan score dist θ ps (some r) cands =
       diversityPick dist θ ps (topK score (shortlistSize ps r) cands) ∧
     (∀ x ∈ selectPlan score dist θ ps (some r) cands,
        x ∈ topK score (shortlistSize ps r) cands) ∧
     (selectPlan score dist θ ps (some r) cands).length =
       min ps (topK score (shortlistSize ps r) cands).length ∧
     (selectPlan score dist θ ps (some r) cands).Nodup) := by
  refine ⟨⟨rfl, ?_, ?_⟩, rfl, ?_, ?_, ?_⟩
  · exact topK_length score ps cands
  · exact topK_nodup score ps cands hnd
  · exact diversityPick_subset dist θ ps _
  · exact diversityPick_length dist θ ps _
  · exact diversityPick_nodup dist θ ps _
      (topK_nodup score (shortlistSize ps r) cands hnd)

/-- Closed witness for C4 on the candidate list [0, 1, 2, 3] with ratio 2. -/
theorem C4_witness :
    ([0, 1, 2, 3] : List Nat).Nodup ∧
    ((selectPlan (fun c => (c : Int)) (fun a b => max a b - min a b) 1 2
        none [0, 1, 2, 3] =
       topK (fun c => (c : Int)) 2 [0, 1, 2, 3] ∧
      (selectPlan (fun c => (c : Int)) (fun a b => max a b - min a b) 1 2
        none [0, 1, 2, 3]).length = min 2 ([0, 1, 2, 3] : List Nat).length ∧
      (selectPlan (fun c => (c : Int)) (fun a b => max a b - min a b) 1 2
        none [0, 1, 2, 3]).Nodup) ∧
     (selectPlan (fun c => (c : Int)) (fun a b => max a b - min a b) 1 2
        (some 2) [0, 1, 2, 3] =
       diversityPick (fun a b => max a b - min a b) 1 2
         (topK (fun c => (c : Int)) (shortlistSize 2 2) [0, 1, 2, 3]) ∧
      (∀ x ∈ selectPlan (fun c => (c : Int)) (fun a b => max a b - min a b)
          1 2 (some 2) [0, 1, 2, 3],
        x ∈ topK (fun c => (c : Int)) (shortlistSize 2 2) [0, 1, 2, 3]) ∧
      (selectPlan (fun c => (c : Int)) (fun a b => max a b - min a b) 1 2
        (some 2) [0, 1, 2, 3]).length =
        min 2 (topK (fun c => (c : Int)) (shortlistSize 2 2)
          [0, 1, 2, 3]).length ∧
      (selectPlan (fun c => (c : Int)) (fun a b => max a b - min a b) 1 2
        (some 2) [0, 1, 2, 3]).Nodup)) :=
  ⟨by decide,
    C4_diversity_filter_dispatch (fun c => (c : Int))
      (fun a b => max a b - min a b) 1 2 2 [0, 1, 2, 3] (by decide)⟩

/-- Modelled from the spec: the predict-side state of the RFEI cost model
(rf_cost_model.py, not under src/): a deterministic feature-extraction
backend, the currently fitted regressor mapping a feature to a
(mean, uncertainty) pair, and the model's private feature cache, filled
lazily and invalidated only by a strategy change or a refit. -/
structure CMState where
  fea : Nat → Int
  regress : Int → Int × Int
  cache : List (Nat × Int)

/-- Cache lookup (first binding wins, as in a dict keyed by index). -/
def cacheLookup : List (Nat × Int) → Nat → Option Int
  | [], _ => none
  | p :: rest, i => if p.1 = i then some p.2 else cacheLookup rest i

/-- Modelled from the spec: the lazily-computed feature vector owned by
the model's cache — a hit returns the cached vector, a miss extracts the
feature and records it. -/
def getFeature (m : CMState) (i : Nat) : Int × CMState :=
  match cacheLookup m.cache i with
  | some v => (v, m)
  | none => (m.fea i, { m with cache := (i, m.fea i) :: m.cache })

/-- Modelled from the spec: predict(batch) returns one (mean, uncertainty)
pair per candidate, extracting features through the cache. -/
def predictBatch (m : CMState) : List Nat → List (Int × Int) × CMState
  | [] => ([], m)
  | i :: rest =>
    (m.regress (getFeature m i).1 ::
      (predictBatch (getFeature m i).2 rest).1,
     (predictBatch (getFeature m i).2 rest).2)

/-- Every cached binding agrees with the extraction backend. -/
def cacheCoherent (m : CMState) : Prop :=
  ∀ p ∈ m.cache, p.2 = m.fea p.1

lemma cacheLookup_mem :
    ∀ (c : List (Nat × Int)) (i : Nat) (v : Int),
      cacheLookup c i = some v → (i, v) ∈ c
  | [], _, _, h => by simp [cacheLookup] at h
  | p :: rest, i, v, h => by
      unfold cacheLookup at h
      by_cases hp : p.1 = i
      · rw [if_pos hp] at h
        have hv : p.2 = v := by
          injection h
        rw [← hp, ← hv]
        exact List.mem_cons_self _ _
      · rw [if_neg hp] at h
        right
        exact cacheLookup_mem rest i v h

lemma getFeature_spec (m : CMState) (i : Nat) (hco : cacheCoherent m) :
    (getFeature m i).1 = m.fea i ∧
    (getFeature m i).2.fea = m.fea ∧
    (getFeature m i).2.regress = m.regress ∧
    cacheCoherent (getFeature m i).2 := by
  unfold getFeature
  cases hl : cacheLookup m.cache i with
  | some v =>
      refine ⟨(hco _ (cacheLookup_mem m.cache i v hl)).symm ▸ rfl, rfl, rfl, hco⟩
  | none =>
      refine ⟨rfl, rfl, rfl, ?_⟩
      intro p hp
      cases hp with
      | head => rfl
      | tail _ hmem => exact hco p hmem

lemma predictBatch_spec (batch : List Nat) :
    ∀ (m : CMState), cacheCoherent m →
      (predictBatch m batch).1 =
        batch.map (fun i => m.regress (m.fea i)) ∧
      (predictBatch m batch).2.fea = m.fea ∧
      (predictBatch m batch).2.regress = m.regress ∧
      cacheCoherent (predictBatch m batch).2 := by
  induction batch with
  | nil => intro m hco; exact ⟨rfl, rfl, rfl, hco⟩
  | cons i rest ih =>
      intro m hco
      obtain ⟨hv, hf, hr, hc⟩ := getFeature_spec m i hco
      obtain ⟨ihv, ihf, ihr, ihc⟩ := ih (getFeature m i).2 hc
      unfold predictBatch
      refine ⟨?_, by rw [ihf, hf], by rw [ihr, hr], ihc⟩
      rw [ihv, hv, hf, hr]
      rfl

/-- C7: on an unrefitted cost model, predicting the same candidate batch
twice — the second call running on the model state the first call leaves
behind, its feature cache included — returns the identical list of
(mean, uncertainty) pairs both times. -/
theorem C7_predict_idempotent (m : CMState) (batch : List Nat)
    (hco : cacheCoherent m) :
    (predictBatch m batch).1 =
      (predictBatch (predictBatch m batch).2 batch).1 := by
  obtain ⟨h1, hf, hr, hc⟩ := predictBatch_spec batch m hco
  obtain ⟨h2, _, _, _⟩ := predictBatch_spec batch (predictBatch m batch).2 hc
  rw [h1, h2, hf, hr]

/-- Closed witness for C7: a concrete model with an empty cache and the
batch [0, 1, 0] (the repeat exercising both a miss and a hit). -/
theorem C7_witness :
    cacheCoherent { fea := fun i => (i : Int),
                    regress := fun f => (f, 1), cache := [] } ∧
    (predictBatch { fea := fun i => (i : Int),
                    regress := fun f => (f, 1), cache := [] } [0, 1, 0]).1 =
      (predictBatch
        (predictBatch { fea := fun i => (i : Int),
                        regress := fun f => (f, 1),
                        cache := [] } [0, 1, 0]).2 [0, 1, 0]).1 :=
  ⟨fun p hp => by simp at hp,
    C7_predict_idempotent
      { fea := fun i => (i : Int), regress := fun f => (f, 1), cache := [] }
      [0, 1, 0] (fun p hp => by simp at hp)⟩
